import Mathlib

/-!
# Verification of `zootasks_utils`

Shallow embedding of `src/zootasks_utils/_src/upload_utils.py` and
`src/zootasks_utils/data.py`, with theorems checking the natural-language
specification against the code.

Machine integers are modelled as `Int`/`Nat` with explicit range conditions;
polars data frames are modelled as lists of rows; fallible polars casts return
`Option`, and the batch pipeline returns `Except`.
-/

/-- A polars cell value as used by the columns of the data frames in this
repository: either an integer or a piece of text. -/
inductive PValue where
  | int : Int → PValue
  | str : String → PValue
deriving DecidableEq, Repr

/-- Model of coercion to text (`str(v)` / polars `.cast(str)`): total, never
fails, integers render in decimal with a leading minus sign when negative. -/
def castStr : PValue → String
  | .int n => toString n
  | .str s => s

/-- Decimal value of a list of digit characters. -/
def digitsVal (l : List Char) : Nat :=
  l.foldl (fun a c => 10 * a + (c.toNat - 48)) 0

/-- Model of the polars strict cast of a text value to `Int64`: an optional
sign followed by at least one decimal digit, value within the signed 64-bit
range; anything else fails. -/
def parseInt64 (s : String) : Option Int :=
  let cs := s.toList
  let sd : Int × List Char :=
    match cs with
    | '-' :: rest => (-1, rest)
    | '+' :: rest => (1, rest)
    | _ => (1, cs)
  if sd.2 ≠ [] ∧ sd.2.all Char.isDigit then
    let v : Int := sd.1 * (digitsVal sd.2 : Int)
    if -(2 ^ 63) ≤ v ∧ v < 2 ^ 63 then some v else none
  else none

/-- Model of `.cast(pl.Int64)` on a cell: an integer must fit in 64 bits, a
text value must parse as a 64-bit integer. -/
def castInt64 : PValue → Option Int
  | .int n => if -(2 ^ 63) ≤ n ∧ n < 2 ^ 63 then some n else none
  | .str s => parseInt64 s

/-- Replacement of every occurrence of a (single-character) pattern, as
`np.char.replace` does; recursion over the character list. -/
def replaceAllChar (c : Char) (r : String) : List Char → String
  | [] => ""
  | x :: xs => (if x = c then r else String.singleton x) ++ replaceAllChar c r xs

/-- Model of `np.char.replace s "-" "NEG"`: all occurrences are replaced. -/
def npCharReplace (s : String) (c : Char) (r : String) : String :=
  replaceAllChar c r s.toList

/-- polars `.str.replace` has default `n = 1`: only the first occurrence of
the pattern is replaced; recursion over the character list. -/
def replaceFirstChar (c : Char) (r : String) : List Char → String
  | [] => ""
  | x :: xs =>
    if x = c then r ++ String.mk xs else String.singleton x ++ replaceFirstChar c r xs

/-- Model of polars `s.str.replace "-" "NEG"`: only the FIRST occurrence is
replaced (polars `replace` defaults to a single replacement; `replace_all`
would replace every occurrence). -/
def plStrReplace (s : String) (c : Char) (r : String) : String :=
  replaceFirstChar c r s.toList

/-- Scalar variant of `make_id_str` (upload_utils.py lines 41-68): an optional
release-name text forms the `f"{release_name}_"` leading part, hyphens in the
object id are replaced by "NEG" via `np.char.replace`, and the tile index is
rendered by the f-string (`str`). -/
def make_id_str (tile_index : PValue) (object_id : String)
    (release_name : Option String := none) : String :=
  let pfx := match release_name with
    | some r => r ++ "_"
    | none => ""
  let obj_id := npCharReplace object_id '-' "NEG"
  pfx ++ castStr tile_index ++ "_" ++ obj_id

/-- A row of the data frame handed to the batch variant: columns
`release_name`, `tile_index`, `object_id`. -/
structure Row where
  release_name : PValue
  tile_index : PValue
  object_id : PValue
deriving DecidableEq, Repr

/-- A polars data frame, modelled as its rows in order. -/
abbrev DataFrame : Type := List Row

/-- The id expression of the batch variant evaluated at one row:
`release_name.cast(str) + "_"` (when included) `+
tile_index.cast(Int64).cast(str) + "_" + object_id.cast(str).str.replace("-", "NEG")`.
The `Int64` cast can fail; the text casts cannot. -/
def rowIdExpr (include_release_name : Bool) (row : Row) : Except String String :=
  let pfx := if include_release_name then castStr row.release_name ++ "_" else ""
  match castInt64 row.tile_index with
  | none => .error "conversion to Int64 failed"
  | some t => .ok (pfx ++ toString t ++ "_" ++ plStrReplace (castStr row.object_id) '-' "NEG")

/-- Batch variant of `make_id_str` (upload_utils.py lines 71-98): evaluate the
id expression on every row in order; a cast failure on any row fails the whole
evaluation and propagates to the caller. -/
def make_id_str_df (df : DataFrame) (include_release_name : Bool := true) :
    Except String (List String) :=
  match df with
  | [] => .ok []
  | row :: rest =>
    match rowIdExpr include_release_name row, make_id_str_df rest include_release_name with
    | .error e, _ => .error e
    | .ok _, .error e => .error e
    | .ok s, .ok l => .ok (s :: l)

/-- The batch call in state-passing form: `df.select(id_expr.alias "unique_id")`
builds a NEW frame from the input and `get_column` reads the derived series
out of it; the pair is (the input frame as observable after the call, the
derived series). polars `select` does not mutate its receiver. -/
def selectUniqueId (df : DataFrame) (include_release_name : Bool) :
    DataFrame × Except String (List String) :=
  (df, make_id_str_df df include_release_name)

example : make_id_str (.int 12345) "abc-123" (some "Q1_R1") = "Q1_R1_12345_abcNEG123" := rfl
example : make_id_str (.int 12345) "abc-123" = "12345_abcNEG123" := rfl
example : make_id_str_df [⟨.str "R", .int 1, .str "a-b-c"⟩] false = .ok ["1_aNEGb-c"] := rfl
example : make_id_str_df [⟨.str "R", .str "abc", .str "o"⟩] true =
    .error "conversion to Int64 failed" := rfl
example : castInt64 (.str "12345") = some 12345 := rfl
example : castInt64 (.str "-7") = some (-7) := rfl
example : castInt64 (.str "9223372036854775808") = none := rfl

/-! ## SHA-256 (model of `hashlib.sha256`) -/

/-- 2^32, the modulus of 32-bit word arithmetic. -/
def M32 : Nat := 2 ^ 32

/-- Right rotation of a 32-bit word (input assumed `< 2^32`). -/
def rotr (n x : Nat) : Nat := x / 2 ^ n + x % 2 ^ n * 2 ^ (32 - n)

/-- Logical right shift. -/
def shr (n x : Nat) : Nat := x / 2 ^ n

/-- SHA-256 choice function `(x AND y) XOR ((NOT x) AND z)`. -/
def ch (x y z : Nat) : Nat :=
  Nat.xor (Nat.land x y) (Nat.land (Nat.xor x (M32 - 1)) z)

/-- SHA-256 majority function. -/
def maj (x y z : Nat) : Nat :=
  Nat.xor (Nat.xor (Nat.land x y) (Nat.land x z)) (Nat.land y z)

/-- Big sigma 0. -/
def bigSigma0 (x : Nat) : Nat := Nat.xor (Nat.xor (rotr 2 x) (rotr 13 x)) (rotr 22 x)

/-- Big sigma 1. -/
def bigSigma1 (x : Nat) : Nat := Nat.xor (Nat.xor (rotr 6 x) (rotr 11 x)) (rotr 25 x)

/-- Small sigma 0. -/
def smallSigma0 (x : Nat) : Nat := Nat.xor (Nat.xor (rotr 7 x) (rotr 18 x)) (shr 3 x)

/-- Small sigma 1. -/
def smallSigma1 (x : Nat) : Nat := Nat.xor (Nat.xor (rotr 17 x) (rotr 19 x)) (shr 10 x)

/-- The 64 SHA-256 round constants (FIPS 180-4), written in decimal. -/
def K : List Nat :=
  [1116352408, 1899447441, 3049323471, 3921009573, 961987163, 1508970993,
   2453635748, 2870763221, 3624381080, 310598401, 607225278, 1426881987,
   1925078388, 2162078206, 2614888103, 3248222580, 3835390401, 4022224774,
   264347078, 604807628, 770255983, 1249150122, 1555081692, 1996064986,
   2554220882, 2821834349, 2952996808, 3210313671, 3336571891, 3584528711,
   113926993, 338241895, 666307205, 773529912, 1294757372, 1396182291,
   1695183700, 1986661051, 2177026350, 2456956037, 2730485921, 2820302411,
   3259730800, 3345764771, 3516065817, 3600352804, 4094571909, 275423344,
   430227734, 506948616, 659060556, 883997877, 958139571, 1322822218,
   1537002063, 1747873779, 1955562222, 2024104815, 2227730452, 2361852424,
   2428436474, 2756734187, 3204031479, 3329325298]

/-- The eight 32-bit state words of SHA-256. -/
structure Hash8 where
  a : Nat
  b : Nat
  c : Nat
  d : Nat
  e : Nat
  f : Nat
  g : Nat
  h : Nat
deriving Repr

/-- The SHA-256 initial hash value (FIPS 180-4), written in decimal. -/
def initHash : Hash8 :=
  ⟨1779033703, 3144134277, 1013904242, 2773480762,
   1359893119, 2600822924, 528734635, 1541459225⟩

/-- Big-endian 64-bit encoding of a length in bits, as eight bytes. -/
def be64 (n : Nat) : List Nat :=
  [n / 2 ^ 56 % 256, n / 2 ^ 48 % 256, n / 2 ^ 40 % 256, n / 2 ^ 32 % 256,
   n / 2 ^ 24 % 256, n / 2 ^ 16 % 256, n / 2 ^ 8 % 256, n % 256]

/-- SHA-256 padding: append `0x80`, zero bytes up to 56 mod 64, then the
message length in bits as a big-endian 64-bit quantity. -/
def padMessage (msg : List Nat) : List Nat :=
  msg ++ [0x80] ++ List.replicate ((119 - msg.length % 64) % 64) 0 ++ be64 (8 * msg.length)

/-- Split a byte list into 64-byte blocks; the fuel bounds the number of
blocks (the list length is always enough fuel). -/
def toBlocksFuel : Nat → List Nat → List (List Nat)
  | 0, _ => []
  | _, [] => []
  | fuel + 1, x :: xs => (x :: xs).take 64 :: toBlocksFuel fuel ((x :: xs).drop 64)

/-- Split a byte list into 64-byte blocks. -/
def toBlocks (l : List Nat) : List (List Nat) := toBlocksFuel l.length l

/-- A big-endian 32-bit word from four bytes. -/
def beWord (a b c d : Nat) : Nat := ((a * 256 + b) * 256 + c) * 256 + d

/-- The sixteen big-endian words of a 64-byte block. -/
def blockWords (blk : List Nat) : List Nat :=
  (List.range 16).map fun i =>
    beWord (blk.getD (4 * i) 0) (blk.getD (4 * i + 1) 0)
      (blk.getD (4 * i + 2) 0) (blk.getD (4 * i + 3) 0)

/-- Extend the sixteen block words to the 64-word message schedule. -/
def schedule (ws : List Nat) : List Nat :=
  (List.range 48).foldl
    (fun acc _ =>
      let n := acc.length
      acc ++ [(smallSigma1 (acc.getD (n - 2) 0) + acc.getD (n - 7) 0 +
               smallSigma0 (acc.getD (n - 15) 0) + acc.getD (n - 16) 0) % M32])
    ws

/-- One SHA-256 compression round on the working variables. -/
def roundStep (st : Hash8) (kw : Nat × Nat) : Hash8 :=
  let t1 := (st.h + bigSigma1 st.e + ch st.e st.f st.g + kw.1 + kw.2) % M32
  let t2 := (bigSigma0 st.a + maj st.a st.b st.c) % M32
  ⟨(t1 + t2) % M32, st.a, st.b, st.c, (st.d + t1) % M32, st.e, st.f, st.g⟩

/-- Process one 64-byte block: run the 64 rounds and add the result into the
running hash, word-wise mod 2^32. -/
def compress (st : Hash8) (blk : List Nat) : Hash8 :=
  let r := (K.zip (schedule (blockWords blk))).foldl roundStep st
  ⟨(st.a + r.a) % M32, (st.b + r.b) % M32, (st.c + r.c) % M32, (st.d + r.d) % M32,
   (st.e + r.e) % M32, (st.f + r.f) % M32, (st.g + r.g) % M32, (st.h + r.h) % M32⟩

/-- SHA-256 of a byte list: pad, then compress every block in order. -/
def sha256 (msg : List Nat) : Hash8 :=
  (toBlocks (padMessage msg)).foldl compress initHash

/-- The four big-endian bytes of a 32-bit word. -/
def wordBytes (w : Nat) : List Nat :=
  [w / 2 ^ 24 % 256, w / 2 ^ 16 % 256, w / 2 ^ 8 % 256, w % 256]

/-- The 32 digest bytes of a final hash state. -/
def digestBytes (st : Hash8) : List Nat :=
  wordBytes st.a ++ wordBytes st.b ++ wordBytes st.c ++ wordBytes st.d ++
  wordBytes st.e ++ wordBytes st.f ++ wordBytes st.g ++ wordBytes st.h

/-- The lowercase hexadecimal digit character for `n < 16`. -/
def hexChar (n : Nat) : Char :=
  if n < 10 then Char.ofNat (48 + n) else Char.ofNat (87 + n)

/-- The two lowercase hexadecimal characters of a byte. -/
def byteHex (b : Nat) : List Char := [hexChar (b / 16 % 16), hexChar (b % 16)]

/-- Model of `hexdigest()`: the bytes rendered as lowercase hexadecimal text. -/
def hexDigest (bs : List Nat) : String := String.mk (bs.flatMap byteHex)

/-- SHA-256 of a byte list as its lowercase hexadecimal digest. -/
def sha256Hex (msg : List Nat) : String := hexDigest (digestBytes (sha256 msg))

/-- UTF-8 encoding of one code point (model of `str.encode()`). -/
def utf8EncodeChar (ch : Char) : List Nat :=
  let n := ch.toNat
  if n < 0x80 then [n]
  else if n < 0x800 then [0xc0 + n / 64, 0x80 + n % 64]
  else if n < 0x10000 then [0xe0 + n / 4096, 0x80 + n / 64 % 64, 0x80 + n % 64]
  else [0xf0 + n / 262144, 0x80 + n / 4096 % 64, 0x80 + n / 64 % 64, 0x80 + n % 64]

/-- UTF-8 encoding of a text value, as a byte list. -/
def utf8Encode (s : String) : List Nat := s.toList.flatMap utf8EncodeChar

/-- Function `get_hash_id` (upload_utils.py lines 12-34): concatenate the subject id
and the extra key with no separator, SHA-256 the UTF-8 bytes, return the
hexadecimal digest. -/
def get_hash_id (subject_id : String) (extra_key : String) : String :=
  sha256Hex (utf8Encode (subject_id ++ extra_key))

example : sha256Hex (utf8Encode "abc") =
    "ba7816bf8f01cfea414140de5dae2223b00361a396177a9cb410ff61f20015ad" := by rfl
example : sha256Hex (utf8Encode "") =
    "e3b0c44298fc1c149afbf4c8996fb92427ae41e4649b934ca495991b7852b855" := by rfl

/-! ## Dataset descriptor (`data.py`) -/

/-- Model of a `pooch` dataset descriptor: a cache path, a base locator and a
registry mapping logical filenames to tagged checksums. A plain record of
data: it exposes no mutating operation. -/
structure PoochDataset where
  path : String
  base_url : String
  registry : List (String × String)
deriving DecidableEq, Repr

/-- Model of `pooch.create`: build the static descriptor record. -/
def pooch_create (path base_url : String) (registry : List (String × String)) :
    PoochDataset :=
  ⟨path, base_url, registry⟩

/-- Model of `pooch.os_cache`: the platform cache directory for the named
application. -/
def os_cache (appName : String) : String := "OS_CACHE/" ++ appName

/-- Descriptor `euclid_q1_morphology` (data.py lines 5-11): a record with a DOI
locator and a one-entry MD5 registry. -/
def euclid_q1_morphology : PoochDataset :=
  pooch_create (os_cache "eggs-zoo-connect") "doi:10.5281/zenodo.15106473"
    [("morphology_catalogue.parquet", "md5:79e7880d5989e05ec23205782c30025a")]

/-! ## Spec-side definitions and helper lemmas -/

/-- Written from the spec text, to be compared with the code: replace every
hyphen of the object id by the three characters "NEG", leaving every other
character alone. -/
def specHyphenToNEG (o : String) : String :=
  String.mk (o.toList.flatMap fun c => if c = '-' then ['N', 'E', 'G'] else [c])

theorem replaceAllChar_eq_flatMap (l : List Char) :
    replaceAllChar '-' "NEG" l =
      String.mk (l.flatMap fun c => if c = '-' then ['N', 'E', 'G'] else [c]) := by
  induction l with
  | nil => rfl
  | cons x xs ih =>
    by_cases hx : x = '-' <;>
      simp [replaceAllChar, hx, ih, String.singleton] <;> rfl

theorem npCharReplace_eq_spec (o : String) :
    npCharReplace o '-' "NEG" = specHyphenToNEG o :=
  replaceAllChar_eq_flatMap o.toList

/-- A lowercase hexadecimal digit character. -/
def isLowerHexChar (c : Char) : Bool :=
  ('0' ≤ c && c ≤ '9') || ('a' ≤ c && c ≤ 'f')

theorem hexChar_lower : ∀ m, m < 16 → isLowerHexChar (hexChar m) = true := by decide

theorem byteHex_lower (b : Nat) : (byteHex b).all isLowerHexChar = true := by
  have h1 := hexChar_lower (b / 16 % 16) (Nat.mod_lt _ (by norm_num))
  have h2 := hexChar_lower (b % 16) (Nat.mod_lt _ (by norm_num))
  simp [byteHex, h1, h2]

theorem flatMap_byteHex_lower (l : List Nat) :
    ((l.flatMap byteHex).all isLowerHexChar) = true := by
  induction l with
  | nil => rfl
  | cons x xs ih => simp [List.flatMap_cons, List.all_append, byteHex_lower, ih]

/-! ## Claim theorems -/

/-- C1: the scalar `make_id_str` returns `release_name + "_" + str(tile_index)
+ "_" + object_id` with every hyphen of the object id replaced by "NEG" when a
release name is given, and the same without the leading part when it is
absent; an integer tile index and its canonical text form yield identical
output. -/
theorem make_id_str_scalar_formula (t : PValue) (o r : String) :
    make_id_str t o (some r) = r ++ "_" ++ castStr t ++ "_" ++ specHyphenToNEG o
    ∧ make_id_str t o none = castStr t ++ "_" ++ specHyphenToNEG o
    ∧ ∀ n : Int,
        make_id_str (.int n) o (some r) = make_id_str (.str (toString n)) o (some r)
        ∧ make_id_str (.int n) o none = make_id_str (.str (toString n)) o none := by
  refine ⟨?_, ?_, fun n => ⟨rfl, rfl⟩⟩
  · show (r ++ "_") ++ castStr t ++ "_" ++ npCharReplace o '-' "NEG" = _
    rw [npCharReplace_eq_spec]
  · show "" ++ castStr t ++ "_" ++ npCharReplace o '-' "NEG" = _
    rw [npCharReplace_eq_spec]
    simp

/-- C2: the scalar variant replaces every hyphen of a multi-hyphen object id,
but the batch variant (polars `.str.replace`, default single replacement)
replaces only the first one: on object id "a-b-c" the batch output keeps a
hyphen and differs from the all-replaced text the claim requires. -/
theorem hyphen_replace_scalar_all_batch_first :
    make_id_str (.int 1) "a-b-c" none = "1_aNEGbNEGc"
    ∧ make_id_str_df [⟨.str "R", .int 1, .str "a-b-c"⟩] true = .ok ["R_1_aNEGb-c"]
    ∧ '-' ∈ "R_1_aNEGb-c".toList ∧ ("R_1_aNEGb-c" : String) ≠ "R_1_aNEGbNEGc" :=
  ⟨rfl, rfl, by decide, by decide⟩

/-- C3: the batch variant does not refine the scalar variant row by row: on a
row with object id "x-y-z" the batch value keeps the second hyphen while the
scalar result replaces both, so the i-th batch value differs from the scalar
result for that row. -/
theorem batch_row_differs_from_scalar :
    make_id_str_df [⟨.str "Q1_R1", .int 7, .str "x-y-z"⟩] true = .ok ["Q1_R1_7_xNEGy-z"]
    ∧ make_id_str (.int 7) "x-y-z" (some "Q1_R1") = "Q1_R1_7_xNEGyNEGz"
    ∧ ("Q1_R1_7_xNEGy-z" : String) ≠ "Q1_R1_7_xNEGyNEGz" :=
  ⟨rfl, rfl, by decide⟩

/-- C4 counterexample: the docstring examples are not what the code computes;
the hyphen of "abc-123" is replaced by "NEG", so neither claimed output
matches. -/
theorem make_id_str_doc_examples_false :
    make_id_str (.int 12345) "abc-123" (some "Q1_R1") ≠ "Q1_R1_12345_abc-123"
    ∧ make_id_str (.int 12345) "abc-123" none ≠ "12345_abc-123" :=
  ⟨by decide, by decide⟩

/-- C4 amended: on (12345, "abc-123", "Q1_R1") the scalar variant returns
"Q1_R1_12345_abcNEG123", and on (12345, "abc-123") with no release name it
returns "12345_abcNEG123". -/
theorem make_id_str_concrete_values :
    make_id_str (.int 12345) "abc-123" (some "Q1_R1") = "Q1_R1_12345_abcNEG123"
    ∧ make_id_str (.int 12345) "abc-123" none = "12345_abcNEG123" :=
  ⟨rfl, rfl⟩

/-- C5: `get_hash_id` returns the SHA-256 digest of the UTF-8 bytes of the
separator-less concatenation of subject id and extra key, rendered as exactly
64 lowercase hexadecimal characters; it is a total deterministic function,
defined on every pair of texts including empty ones. -/
theorem get_hash_id_sha256_hex (a b : String) :
    get_hash_id a b = sha256Hex (utf8Encode (a ++ b))
    ∧ (get_hash_id a b).length = 64
    ∧ (get_hash_id a b).toList.all isLowerHexChar = true :=
  ⟨rfl, rfl, flatMap_byteHex_lower (digestBytes (sha256 (utf8Encode (a ++ b))))⟩

/-- C6: the batch variant fails, and the failure propagates to the caller,
exactly when some row's tile index does not cast to a 64-bit integer; when
every row's tile index casts, the evaluation succeeds (the text coercions of
the other columns never fail). -/
theorem make_id_str_df_cast_failure (df : DataFrame) (b : Bool) :
    ((∃ row ∈ df, castInt64 row.tile_index = none) →
      ∃ e, make_id_str_df df b = .error e)
    ∧ ((∀ row ∈ df, castInt64 row.tile_index ≠ none) →
      ∃ l, make_id_str_df df b = .ok l) := by
  induction df with
  | nil =>
    refine ⟨fun h => ?_, fun _ => ⟨[], rfl⟩⟩
    obtain ⟨row, hmem, -⟩ := h
    exact absurd hmem (List.not_mem_nil row)
  | cons row rest ih =>
    constructor
    · rintro ⟨r, hr, hnone⟩
      rcases List.mem_cons.mp hr with h | h
      · subst h
        exact ⟨"conversion to Int64 failed", by simp [make_id_str_df, rowIdExpr, hnone]⟩
      · obtain ⟨e, he⟩ := ih.1 ⟨r, h, hnone⟩
        cases hre : rowIdExpr b row with
        | error e2 => exact ⟨e2, by simp [make_id_str_df, hre]⟩
        | ok s => exact ⟨e, by simp [make_id_str_df, hre, he]⟩
    · intro hall
      have h1 : castInt64 row.tile_index ≠ none := hall row (List.mem_cons_self row rest)
      obtain ⟨t, ht⟩ := Option.ne_none_iff_exists'.mp h1
      obtain ⟨l, hl⟩ := ih.2 fun r hr => hall r (List.mem_cons_of_mem row hr)
      refine ⟨((if b then castStr row.release_name ++ "_" else "") ++ toString t ++ "_" ++
        plStrReplace (castStr row.object_id) '-' "NEG") :: l, ?_⟩
      simp [make_id_str_df, rowIdExpr, ht, hl]

/-- C6 witness: a one-row frame whose tile index is the text "abc" makes the
batch variant fail. -/
theorem make_id_str_df_cast_failure_witness :
    ∃ e, make_id_str_df [⟨.str "R", .str "abc", .str "o"⟩] true = .error e :=
  (make_id_str_df_cast_failure [⟨.str "R", .str "abc", .str "o"⟩] true).1
    ⟨⟨.str "R", .str "abc", .str "o"⟩, by simp, rfl⟩

/-- C7: the scalar variant performs no validation of a text tile index: any
text, integer-like or not, is passed through unchanged into the output, and
the function is total (no error). -/
theorem make_id_str_scalar_passthrough (s o : String) (r : Option String) :
    make_id_str (.str s) o r =
      (match r with
       | some rn => rn ++ "_"
       | none => "") ++ s ++ "_" ++ npCharReplace o '-' "NEG" := by
  cases r <;> rfl

/-- C8: the batch call leaves the input frame unchanged (same rows, same
order, observable after the call); the derived series is computed into a new
value. -/
theorem selectUniqueId_preserves_frame (df : DataFrame) (b : Bool) :
    (selectUniqueId df b).1 = df ∧ (selectUniqueId df b).2 = make_id_str_df df b :=
  ⟨rfl, rfl⟩

/-- C9: the dataset descriptor locates its content by a DOI (not a raw URL)
and its registry holds exactly one entry, mapping
"morphology_catalogue.parquet" to an MD5-tagged checksum; the record holds
data only. -/
theorem euclid_q1_morphology_static :
    "doi:".toList.isPrefixOf euclid_q1_morphology.base_url.toList = true
    ∧ "http".toList.isPrefixOf euclid_q1_morphology.base_url.toList = false
    ∧ euclid_q1_morphology.registry =
        [("morphology_catalogue.parquet", "md5:79e7880d5989e05ec23205782c30025a")]
    ∧ euclid_q1_morphology.registry.length = 1
    ∧ (euclid_q1_morphology.registry.all fun e => "md5:".toList.isPrefixOf e.2.toList) = true :=
  ⟨rfl, rfl, rfl, rfl, rfl⟩

/-- C10: `get_hash_id` only sees the concatenation of subject id and extra
key: two pairs with the same concatenation hash identically. -/
theorem get_hash_id_concat_only (a b c d : String) (h : a ++ b = c ++ d) :
    get_hash_id a b = get_hash_id c d := by
  unfold get_hash_id
  rw [h]

/-- C10 witness: ("ab", "c") and ("a", "bc") concatenate to the same text and
hash identically. -/
theorem get_hash_id_concat_only_witness :
    ("ab" ++ "c" = "a" ++ "bc") ∧ get_hash_id "ab" "c" = get_hash_id "a" "bc" :=
  ⟨by decide, get_hash_id_concat_only "ab" "c" "a" "bc" (by decide)⟩
